import Mathlib

/-!
# Verification of the eclipse progress driver

Shallow embedding of the animated solar-eclipse widget (src/index.tsx):
the six-phase data model, the phase-index derivation, the time-dilation
speed multiplier, the animation-frame loop with wraparound modulo 1, the
user controls (scrubber, phase-jump buttons, play/pause toggle), and the
best-effort narrative fetch with its built-in fallback table.

JavaScript numbers are modelled as rationals (ℚ); the JavaScript `%`
operator (truncated remainder, sign of the dividend) is modelled by
`jsMod`.  The repository holds two near-duplicate copies of the same
component whose animation logic (constants included) is identical; one
embedding covers both.
-/

namespace Eclipse

/-- The six ordered phases, mirroring
`const PHASES = ['before','first_contact','during_peak','totality','return_of_light','afterglow']`
(src/index.tsx line 6) and the derived TS type `Phase`. -/
inductive Phase where
  | before
  | first_contact
  | during_peak
  | totality
  | return_of_light
  | afterglow
deriving DecidableEq, Repr

/-- The ordered phase list `PHASES` (src/index.tsx line 6). -/
def PHASES : List Phase :=
  [.before, .first_contact, .during_peak, .totality, .return_of_light, .afterglow]

/-- `PHASES.length`, the phase count N used at src/index.tsx line 75. -/
def numPhases : Nat := PHASES.length

/-- `PHASE_LABELS` (src/index.tsx lines 9-16). -/
def PHASE_LABELS : Phase → String
  | .before => "Anticipation"
  | .first_contact => "Transformation"
  | .during_peak => "Silver Veil"
  | .totality => "Totality"
  | .return_of_light => "Renewal"
  | .afterglow => "Resonance"

/-- One narrative entry: the three string fields of each phase record
(src/index.tsx line 18). -/
structure StoryEntry where
  sentence : String
  feeling : String
  reflection : String
deriving DecidableEq, Repr

/-- `DEFAULT_STORY` (src/index.tsx lines 18-25): the built-in narrative table. -/
def DEFAULT_STORY : Phase → StoryEntry
  | .before =>
      { sentence := "Ibiza pulses with a warm, expectant glow.",
        feeling := "Quiet, Solar",
        reflection := "What intentions are you carrying into the shadow?" }
  | .first_contact =>
      { sentence := "A cosmic bite begins the silent transformation.",
        feeling := "Shift, Breath",
        reflection := "Can you feel the air cooling on your skin?" }
  | .during_peak =>
      { sentence := "Surreal silver light washes over the Mediterranean.",
        feeling := "Ethereal, Gold",
        reflection := "Who is sharing this half-lit world with you?" }
  | .totality =>
      { sentence := "The universe holds its breath in a ring of fire.",
        feeling := "Infinite, Absolute",
        reflection := "When the sun vanishes, what truth remains?" }
  | .return_of_light =>
      { sentence := "A diamond spark heralds the second dawn.",
        feeling := "Birth, Clarity",
        reflection := "What will you build with this restored light?" }
  | .afterglow =>
      { sentence := "The shadow leaves a golden mark upon the soul.",
        feeling := "Presence, Awake",
        reflection := "How will you speak of this to the future?" }

/-- The `story` state: a JS object that may be missing phase keys after a
partial fetch response replaces it, hence a partial map.  A present key
holds `some entry`; an absent key reads as `undefined`, i.e. `none`. -/
def Story := Phase → Option StoryEntry

/-- The initial `story` state, `useState(DEFAULT_STORY)` (src/index.tsx
line 62): every phase key present with the built-in entry. -/
def defaultStory : Story := fun ph => some (DEFAULT_STORY ph)

/-- `currentIdx = Math.min(Math.floor(progress * PHASES.length), PHASES.length - 1)`
(src/index.tsx line 75). -/
def currentIdx (progress : ℚ) : ℤ :=
  min ⌊progress * (numPhases : ℚ)⌋ ((numPhases : ℤ) - 1)

/-- The phase-index formula as the spec words it:
`phaseIndex = min(floor(progress × 6), 6 − 1)`.  Stated from the spec, to be
compared against `currentIdx`, which is translated from the source. -/
def phaseIndexSpec (progress : ℚ) : ℤ :=
  min ⌊progress * 6⌋ 5

/-- `currentPhase = PHASES[currentIdx]` (src/index.tsx line 76), as a
checked lookup so out-of-bounds access is visible as `none`. -/
def currentPhase (progress : ℚ) : Option Phase :=
  PHASES.get? (currentIdx progress).toNat

/-- `activeData = story[currentPhase] || DEFAULT_STORY[currentPhase]`
(src/index.tsx line 77): a missing key falls back to the built-in entry. -/
def activeData (story : Story) (ph : Phase) : StoryEntry :=
  (story ph).getD (DEFAULT_STORY ph)

/-- `speedMultiplier = proximity < 0.01 ? 0.15 : (proximity < 0.12 ? 0.45 : 1.0)`
with `proximity = Math.abs(0.5 - progress)` (src/index.tsx lines 87-89). -/
def speedMultiplier (progress : ℚ) : ℚ :=
  if |1/2 - progress| < 1/100 then 15/100
  else if |1/2 - progress| < 12/100 then 45/100
  else 1

/-- `baseSpeed = 0.000032` (src/index.tsx line 90). -/
def baseSpeed : ℚ := 32/1000000

/-- JavaScript truncation toward zero, as used by the `%` operator. -/
def jsTrunc (x : ℚ) : ℤ :=
  if 0 ≤ x then ⌊x⌋ else ⌈x⌉

/-- The JavaScript `%` operator on numbers: truncated remainder, taking
the sign of the dividend. -/
def jsMod (x y : ℚ) : ℚ :=
  x - y * jsTrunc (x / y)

/-- One progress update of the drive loop while playing:
`setProgress(p => (p + dt * baseSpeed * speedMultiplier) % 1)`
(src/index.tsx line 92), where the multiplier is computed from the
progress current at that tick. -/
def tick (dt p : ℚ) : ℚ :=
  jsMod (p + dt * baseSpeed * speedMultiplier p) 1

/-- The mutable component state: `progress`, `playing` (src/index.tsx
lines 63-64) and the Δt baseline `lastTimeRef` (line 65). -/
structure EclipseState where
  progress : ℚ
  playing : Bool
  lastTime : ℚ
deriving DecidableEq, Repr

/-- The state at load: `progress = 0`, `playing = true`, and the baseline
set to the mount time (taken as time origin 0 here). -/
def initState : EclipseState :=
  { progress := 0, playing := true, lastTime := 0 }

/-- One animation-frame callback `loop(t)` (src/index.tsx lines 82-93):
`dt` is measured against the stored baseline, the baseline is refreshed
unconditionally, and `progress` is advanced only while playing. -/
def loop (t : ℚ) (s : EclipseState) : EclipseState :=
  let dt := t - s.lastTime
  if s.playing then
    { progress := tick dt s.progress, playing := s.playing, lastTime := t }
  else
    { progress := s.progress, playing := s.playing, lastTime := t }

/-- A sequence of frame callbacks at the given timestamps. -/
def runFrames (ts : List ℚ) (s : EclipseState) : EclipseState :=
  ts.foldl (fun s t => loop t s) s

/-- The scrubber handler
`onInput = e => {setProgress(parseFloat(e.currentTarget.value)); setPlaying(false);}`
(src/index.tsx lines 228-236); the range input spans min 0 to max 1. -/
def scrubTo (v : ℚ) (s : EclipseState) : EclipseState :=
  { progress := v, playing := false, lastTime := s.lastTime }

/-- The phase-jump button handler
`onClick = () => {setProgress(i / (PHASES.length - 1)); setPlaying(false);}`
(src/index.tsx lines 217-223). -/
def phaseJump (i : Nat) (s : EclipseState) : EclipseState :=
  { progress := (i : ℚ) / ((numPhases : ℚ) - 1), playing := false,
    lastTime := s.lastTime }

/-- The play/pause toggle `onClick = () => setPlaying(!playing)`
(src/index.tsx line 173). -/
def togglePlay (s : EclipseState) : EclipseState :=
  { progress := s.progress, playing := !s.playing, lastTime := s.lastTime }

/-- Every writer of the component state. -/
inductive Event where
  | frame (t : ℚ)
  | scrub (v : ℚ)
  | jump (i : Nat)
  | toggle

/-- What each event does to the state. -/
def Event.apply : Event → EclipseState → EclipseState
  | .frame t, s => loop t s
  | .scrub v, s => scrubTo v s
  | .jump i, s => phaseJump i s
  | .toggle, s => togglePlay s

/-- The environment constraints under which each event fires: frame
timestamps are monotone, the scrubber emits values within its 0..1 range,
and the six jump buttons carry indices below the phase count. -/
def Event.valid : Event → EclipseState → Prop
  | .frame t, s => s.lastTime ≤ t
  | .scrub v, _ => 0 ≤ v ∧ v ≤ 1
  | .jump i, _ => i < numPhases
  | .toggle, _ => True

/-- States reachable from load through valid events. -/
inductive Reachable : EclipseState → Prop where
  | init : Reachable initState
  | next {s : EclipseState} (e : Event) : Reachable s → e.valid s →
      Reachable (e.apply s)

/-- The possible outcomes of the narrative fetch `fetchPoetry`
(src/index.tsx lines 101-147): the credential may be absent (request
skipped, line 104), the request or `JSON.parse` may throw (caught at
line 142), the response may carry no text (line 139 guard), or a parsed
table — possibly missing phase keys — is obtained. -/
inductive FetchOutcome where
  | noCredential
  | transportError
  | parseError
  | emptyText
  | parsed (tbl : Story)

/-- The effect of `fetchPoetry` on the `story` state: only a parsed
response replaces the table, wholesale, via `setStory(JSON.parse(response.text))`
(src/index.tsx line 140); every failure leaves the prior table in place. -/
def fetchPoetry (o : FetchOutcome) (story : Story) : Story :=
  match o with
  | .noCredential => story
  | .transportError => story
  | .parseError => story
  | .emptyText => story
  | .parsed tbl => tbl

/-- `numPhases` evaluates to six. -/
theorem numPhases_eq : numPhases = 6 := rfl

/-- The speed multiplier is positive in every band. -/
theorem speedMultiplier_pos (p : ℚ) : 0 < speedMultiplier p := by
  unfold speedMultiplier
  split_ifs <;> norm_num

/-- On a nonnegative dividend, the JavaScript remainder by one is the
fractional part. -/
theorem jsMod_one_of_nonneg (x : ℚ) (hx : 0 ≤ x) : jsMod x 1 = x - ⌊x⌋ := by
  unfold jsMod jsTrunc
  rw [div_one, if_pos hx]
  ring

/-- Far from the midpoint the multiplier is at full speed. -/
theorem speedMultiplier_eq_one_far (p : ℚ) (h : 12/100 ≤ |1/2 - p|) :
    speedMultiplier p = 1 := by
  unfold speedMultiplier
  rw [if_neg (not_lt.mpr (by linarith)), if_neg (not_lt.mpr h)]

/-- At Progress 0.999999 the multiplier is at full speed. -/
theorem speedMultiplier_at_wrap : speedMultiplier (999999/1000000) = 1 :=
  speedMultiplier_eq_one_far _ (by rw [le_abs]; right; norm_num)

/-- A tick from a nonnegative progress with nonnegative elapsed time lands
in the half-open unit interval. -/
theorem tick_nonneg_lt_one (dt p : ℚ) (hdt : 0 ≤ dt) (hp : 0 ≤ p) :
    0 ≤ tick dt p ∧ tick dt p < 1 := by
  have hm : 0 < speedMultiplier p := speedMultiplier_pos p
  have hbs : (0:ℚ) < baseSpeed := by norm_num [baseSpeed]
  have hx : 0 ≤ p + dt * baseSpeed * speedMultiplier p := by positivity
  have ht : tick dt p = (p + dt * baseSpeed * speedMultiplier p) -
      ⌊p + dt * baseSpeed * speedMultiplier p⌋ :=
    jsMod_one_of_nonneg _ hx
  have h1 := Int.floor_le (p + dt * baseSpeed * speedMultiplier p)
  have h2 := Int.lt_floor_add_one (p + dt * baseSpeed * speedMultiplier p)
  constructor
  · rw [ht]; linarith
  · rw [ht]; linarith

/-- Claim C1: for Progress p in [0,1) the derived phase index computed by
the source (`currentIdx`) agrees with the spec formula min(floor(p·6), 5);
on each of the six subintervals [i/6, (i+1)/6) the index is constantly i,
so the map is a step function with exactly six outputs whose boundaries
are the multiples of 1/6; and identical Progress yields identical phase. -/
theorem phase_index_spec_correct (p : ℚ) (h0 : 0 ≤ p) (h1 : p < 1) :
    currentIdx p = phaseIndexSpec p ∧
    (0 ≤ currentIdx p ∧ currentIdx p ≤ 5) ∧
    (∀ i : Nat, i < 6 → (i : ℚ)/6 ≤ p → p < ((i : ℚ) + 1)/6 →
      currentIdx p = i) ∧
    (∀ q : ℚ, q = p → currentIdx q = currentIdx p) := by
  have hdef : currentIdx p = min ⌊p * 6⌋ 5 := by
    unfold currentIdx
    rw [numPhases_eq]
    norm_num
  refine ⟨hdef, ⟨?_, ?_⟩, ?_, ?_⟩
  · rw [hdef]
    have : (0:ℤ) ≤ ⌊p * 6⌋ := Int.floor_nonneg.mpr (by positivity)
    exact le_min this (by norm_num)
  · rw [hdef]
    exact min_le_right _ _
  · intro i hi hlo hhi
    have hlo' : (i : ℚ) ≤ p * 6 := by
      rw [div_le_iff₀ (by norm_num : (0:ℚ) < 6)] at hlo
      linarith
    have hhi' : p * 6 < (i : ℚ) + 1 := by
      rw [lt_div_iff₀ (by norm_num : (0:ℚ) < 6)] at hhi
      linarith
    have hfl : ⌊p * 6⌋ = (i : ℤ) := by
      rw [Int.floor_eq_iff]
      · constructor
        · exact_mod_cast hlo'
        · push_cast
          linarith
    have hile : (i : ℤ) ≤ 5 := by omega
    rw [hdef, hfl]
    exact min_eq_left hile
  · intro q hq
    rw [hq]

/-- Witness of claim C1 at p = 1/3. -/
theorem phase_index_spec_correct_witness :
    currentIdx (1/3) = phaseIndexSpec (1/3) ∧ currentIdx (1/3) = 2 :=
  ⟨(phase_index_spec_correct (1/3) (by norm_num) (by norm_num)).1,
   (phase_index_spec_correct (1/3) (by norm_num) (by norm_num)).2.2.1
     2 (by norm_num) (by norm_num) (by norm_num)⟩

/-- Claim C3: with proximity = |0.5 − p|, the tick multiplier lies in
0.12..0.15 when proximity < 0.01 (the code picks 0.15), lies in 0.4..0.45
when 0.01 ≤ proximity < 0.12 (the code threshold 12/100 sits in the
spec's 0.10..0.12 window and the code picks 0.45), and equals exactly 1
otherwise. -/
theorem speed_multiplier_bands (p : ℚ) :
    (|1/2 - p| < 1/100 →
      12/100 ≤ speedMultiplier p ∧ speedMultiplier p ≤ 15/100) ∧
    (1/100 ≤ |1/2 - p| → |1/2 - p| < 12/100 →
      2/5 ≤ speedMultiplier p ∧ speedMultiplier p ≤ 45/100) ∧
    (12/100 ≤ |1/2 - p| → speedMultiplier p = 1) := by
  refine ⟨?_, ?_, ?_⟩
  · intro h
    unfold speedMultiplier
    rw [if_pos h]
    norm_num
  · intro h1 h2
    unfold speedMultiplier
    rw [if_neg (not_lt.mpr h1), if_pos h2]
    norm_num
  · intro h
    unfold speedMultiplier
    rw [if_neg (not_lt.mpr (by linarith)), if_neg (not_lt.mpr h)]

/-- Witness of claim C3: one input in each band. -/
theorem speed_multiplier_bands_witness :
    (12/100 ≤ speedMultiplier (1/2) ∧ speedMultiplier (1/2) ≤ 15/100) ∧
    (2/5 ≤ speedMultiplier (45/100) ∧ speedMultiplier (45/100) ≤ 45/100) ∧
    speedMultiplier 0 = 1 :=
  ⟨(speed_multiplier_bands (1/2)).1 (by norm_num),
   (speed_multiplier_bands (45/100)).2.1 (by rw [le_abs]; left; norm_num)
     (by rw [abs_lt]; constructor <;> norm_num),
   (speed_multiplier_bands 0).2.2 (by rw [le_abs]; left; norm_num)⟩

/-- Claim C4: the speed multiplier is symmetric around the midpoint,
monotone nondecreasing in the proximity |0.5 − p|, and equal to full
speed 1 far from the midpoint. -/
theorem speed_multiplier_symm_mono (x p q : ℚ) :
    speedMultiplier (1/2 + x) = speedMultiplier (1/2 - x) ∧
    (|1/2 - p| ≤ |1/2 - q| → speedMultiplier p ≤ speedMultiplier q) ∧
    (12/100 ≤ |1/2 - p| → speedMultiplier p = 1) := by
  refine ⟨?_, ?_, ?_⟩
  · have e1 : (1:ℚ)/2 - (1/2 + x) = -x := by ring
    have e2 : (1:ℚ)/2 - (1/2 - x) = x := by ring
    unfold speedMultiplier
    rw [e1, e2, abs_neg]
  · intro hle
    unfold speedMultiplier
    split_ifs <;> linarith
  · intro h
    unfold speedMultiplier
    rw [if_neg (not_lt.mpr (by linarith)), if_neg (not_lt.mpr h)]

/-- Witness of claim C4 at x = 1/4, p = 1/2, q = 0. -/
theorem speed_multiplier_symm_mono_witness :
    speedMultiplier (1/2 + 1/4) = speedMultiplier (1/2 - 1/4) ∧
    speedMultiplier (1/2) ≤ speedMultiplier 0 ∧
    speedMultiplier 0 = 1 :=
  ⟨(speed_multiplier_symm_mono (1/4) 0 0).1,
   (speed_multiplier_symm_mono 0 (1/2) 0).2.1 (by norm_num),
   (speed_multiplier_symm_mono 0 0 0).2.2 (by rw [le_abs]; left; norm_num)⟩

/-- Claim C6: scrubbing to a value v in [0,1] sets Progress exactly to v
and pauses, and the phase-jump control for index i sets Progress exactly
to i/(6−1) and pauses, regardless of prior state. -/
theorem controls_write_progress (v : ℚ) (i : Nat) (s : EclipseState)
    (hv0 : 0 ≤ v) (hv1 : v ≤ 1) (hi : i < numPhases) :
    (scrubTo v s).progress = v ∧ (scrubTo v s).playing = false ∧
    (phaseJump i s).progress = (i : ℚ) / (6 - 1) ∧
    (phaseJump i s).playing = false := by
  refine ⟨rfl, rfl, ?_, rfl⟩
  unfold phaseJump
  rw [numPhases_eq]
  norm_num

/-- Witness of claim C6 at v = 1/2, i = 3 from the load state. -/
theorem controls_write_progress_witness :
    (scrubTo (1/2) initState).progress = 1/2 ∧
    (scrubTo (1/2) initState).playing = false ∧
    (phaseJump 3 initState).progress = (3 : ℚ) / (6 - 1) ∧
    (phaseJump 3 initState).playing = false :=
  controls_write_progress (1/2) 3 initState (by norm_num) (by norm_num)
    (by decide)

/-- Claim C5: while paused, any sequence of frame callbacks leaves
Progress (and the paused flag) unchanged, while the Δt baseline is
refreshed to the last frame timestamp. -/
theorem paused_frames_freeze (ts : List ℚ) (s : EclipseState)
    (h : s.playing = false) :
    (runFrames ts s).progress = s.progress ∧
    (runFrames ts s).playing = false ∧
    (runFrames ts s).lastTime = ts.getLastD s.lastTime := by
  induction ts generalizing s with
  | nil => exact ⟨rfl, h, rfl⟩
  | cons t ts ih =>
      have hloop : loop t s =
          { progress := s.progress, playing := false, lastTime := t } := by
        simp [loop, h]
      have hrun : runFrames (t :: ts) s = runFrames ts (loop t s) := rfl
      have := ih (loop t s) (by rw [hloop])
      rw [hrun, hloop] at *
      exact ⟨this.1, this.2.1, by rw [this.2.2, List.getLastD_cons]⟩

/-- Witness of claim C5: two frames on a paused state. -/
theorem paused_frames_freeze_witness :
    (runFrames [7, 9] ⟨1/4, false, 0⟩).progress = 1/4 ∧
    (runFrames [7, 9] ⟨1/4, false, 0⟩).playing = false ∧
    (runFrames [7, 9] ⟨1/4, false, 0⟩).lastTime = 9 :=
  paused_frames_freeze [7, 9] ⟨1/4, false, 0⟩ rfl

/-- Counterexample to claim C2 as stated: from the load state, the valid
phase-jump on the last control (index 5) writes Progress = 5/(6−1) = 1,
which violates the claimed range [0,1). -/
theorem progress_reaches_one :
    Reachable (Event.apply (.jump 5) initState) ∧
    (Event.apply (.jump 5) initState).progress = 1 ∧
    ¬ (Event.apply (.jump 5) initState).progress < 1 := by
  refine ⟨Reachable.next (.jump 5) Reachable.init
    (show (5:Nat) < numPhases by decide), ?_, ?_⟩
  · show (phaseJump 5 initState).progress = 1
    unfold phaseJump
    rw [numPhases_eq]
    norm_num
  · show ¬ (phaseJump 5 initState).progress < 1
    unfold phaseJump
    rw [numPhases_eq]
    norm_num

/-- Claim C2 as amended: every state reachable from the load state
(Progress = 0) through the animation tick, scrubbing, the phase-jump
controls and the play toggle keeps Progress in the closed interval
[0,1] — never negative, but the upper end 1 is attained (by the last
phase-jump and the scrubber maximum), so the half-open bound [0,1) of the
original claim does not hold. -/
theorem progress_stays_in_unit_interval {s : EclipseState}
    (h : Reachable s) : 0 ≤ s.progress ∧ s.progress ≤ 1 := by
  induction h with
  | init => exact ⟨le_refl 0, by show (0:ℚ) ≤ 1; norm_num⟩
  | next e hr hv ih =>
      rename_i s'
      cases e with
      | frame t =>
          have hdt : 0 ≤ t - s'.lastTime := by
            have hle : s'.lastTime ≤ t := hv
            linarith
          show 0 ≤ (loop t s').progress ∧ (loop t s').progress ≤ 1
          by_cases hp : s'.playing
          · have hl : (loop t s').progress =
                tick (t - s'.lastTime) s'.progress := by
              simp [loop, hp]
            rw [hl]
            have hb := tick_nonneg_lt_one (t - s'.lastTime) s'.progress hdt ih.1
            exact ⟨hb.1, le_of_lt hb.2⟩
          · have hl : (loop t s').progress = s'.progress := by
              simp [loop, hp]
            rw [hl]
            exact ih
      | scrub v => exact hv
      | jump i =>
          have hi : i < numPhases := hv
          rw [numPhases_eq] at hi
          have hi5 : (i : ℚ) ≤ 5 := by
            exact_mod_cast Nat.lt_succ_iff.mp hi
          show 0 ≤ (i : ℚ) / ((numPhases : ℚ) - 1) ∧
              (i : ℚ) / ((numPhases : ℚ) - 1) ≤ 1
          rw [numPhases_eq]
          push_cast
          constructor
          · positivity
          · rw [div_le_one (by norm_num)]
            linarith
      | toggle => exact ih

/-- Witness of amended claim C2: the load state itself. -/
theorem progress_stays_in_unit_interval_witness :
    0 ≤ initState.progress ∧ initState.progress ≤ 1 :=
  progress_stays_in_unit_interval Reachable.init

/-- Counterexample to claim C7 as stated: at dt = 1/100 the increment
dt·baseSpeed·multiplier = 32/100000000 is positive but too small to wrap,
the tick from 0.999999 yields 0.99999932, and that value does not lie in
[0, increment): the containment only holds once the advance wraps. -/
theorem tick_small_increment_stays_high :
    (0:ℚ) < 1/100 * baseSpeed * speedMultiplier (999999/1000000) ∧
    tick (1/100) (999999/1000000) = 99999932/100000000 ∧
    ¬ (tick (1/100) (999999/1000000) <
        1/100 * baseSpeed * speedMultiplier (999999/1000000)) := by
  have hm := speedMultiplier_at_wrap
  have hval : tick (1/100) (999999/1000000) = 99999932/100000000 := by
    unfold tick
    rw [hm]
    rw [show (999999:ℚ)/1000000 + 1/100 * baseSpeed * 1 =
      99999932/100000000 by norm_num [baseSpeed]]
    rw [jsMod_one_of_nonneg _ (by norm_num)]
    rw [show ⌊(99999932:ℚ)/100000000⌋ = 0 from
      Int.floor_eq_zero_iff.mpr (Set.mem_Ico.mpr ⟨by norm_num, by norm_num⟩)]
    norm_num
  rw [hval, hm]
  norm_num [baseSpeed]

/-- Claim C7 as amended: a tick from Progress 0.999999 with any positive
elapsed time yields a value that is never negative and never ≥ 1, and
whenever the advance wraps past 1 the result is below the increment
dt·baseSpeed·multiplier itself. -/
theorem wraparound_tick (dt : ℚ) (hdt : 0 < dt) :
    0 ≤ tick dt (999999/1000000) ∧
    tick dt (999999/1000000) < 1 ∧
    (1 ≤ 999999/1000000 + dt * baseSpeed * speedMultiplier (999999/1000000) →
      tick dt (999999/1000000) <
        dt * baseSpeed * speedMultiplier (999999/1000000)) := by
  have hm : 0 < speedMultiplier (999999/1000000) :=
    speedMultiplier_pos (999999/1000000)
  have hbs : (0:ℚ) < baseSpeed := by norm_num [baseSpeed]
  have hb := tick_nonneg_lt_one dt (999999/1000000) (le_of_lt hdt)
    (by norm_num)
  refine ⟨hb.1, hb.2, ?_⟩
  intro hwrap
  have hx : 0 ≤ 999999/1000000 + dt * baseSpeed *
      speedMultiplier (999999/1000000) := by linarith
  have ht : tick dt (999999/1000000) =
      (999999/1000000 + dt * baseSpeed *
        speedMultiplier (999999/1000000)) -
      ⌊999999/1000000 + dt * baseSpeed *
        speedMultiplier (999999/1000000)⌋ :=
    jsMod_one_of_nonneg _ hx
  have hfl : (1:ℤ) ≤ ⌊999999/1000000 + dt * baseSpeed *
      speedMultiplier (999999/1000000)⌋ := by
    rw [Int.le_floor]
    exact_mod_cast hwrap
  have hfl' : (1:ℚ) ≤ (⌊999999/1000000 + dt * baseSpeed *
      speedMultiplier (999999/1000000)⌋ : ℚ) := by
    exact_mod_cast hfl
  rw [ht]
  linarith

/-- Witness of claim C7 at dt = 100000 (the increment is 3.2, so the
advance wraps). -/
theorem wraparound_tick_witness :
    0 ≤ tick 100000 (999999/1000000) ∧
    tick 100000 (999999/1000000) < 1 ∧
    tick 100000 (999999/1000000) <
      100000 * baseSpeed * speedMultiplier (999999/1000000) :=
  ⟨(wraparound_tick 100000 (by norm_num)).1,
   (wraparound_tick 100000 (by norm_num)).2.1,
   (wraparound_tick 100000 (by norm_num)).2.2
     (by rw [speedMultiplier_at_wrap]; norm_num [baseSpeed])⟩

/-- Claim C8: on a missing credential, a transport/response error, or a
schema/parse mismatch, the fetch leaves the narrative table exactly at
the built-in defaults, every displayed entry is the built-in entry, and
the handler returns normally (it is a total function here). -/
theorem fetch_failure_keeps_defaults (o : FetchOutcome)
    (h : o = .noCredential ∨ o = .transportError ∨ o = .parseError) :
    fetchPoetry o defaultStory = defaultStory ∧
    ∀ ph : Phase,
      activeData (fetchPoetry o defaultStory) ph = DEFAULT_STORY ph := by
  have he : fetchPoetry o defaultStory = defaultStory := by
    rcases h with h | h | h <;> subst h <;> rfl
  refine ⟨he, fun ph => ?_⟩
  rw [he]
  rfl

/-- Witness of claim C8: a transport error leaves the totality entry at
its default. -/
theorem fetch_failure_keeps_defaults_witness :
    fetchPoetry .transportError defaultStory = defaultStory ∧
    activeData (fetchPoetry .transportError defaultStory) .totality =
      DEFAULT_STORY .totality :=
  ⟨(fetch_failure_keeps_defaults .transportError (Or.inr (Or.inl rfl))).1,
   (fetch_failure_keeps_defaults .transportError
     (Or.inr (Or.inl rfl))).2 .totality⟩

/-- Claim C9: a parsed response replaces the stored narrative table
wholesale; for any phase key missing from the stored table the displayed
entry is the built-in default for that phase, and for any present key it
is the fetched entry — with no runtime fault in either case. -/
theorem fetch_success_replaces_wholesale (tbl prior : Story) :
    fetchPoetry (.parsed tbl) prior = tbl ∧
    (∀ ph : Phase, tbl ph = none →
      activeData (fetchPoetry (.parsed tbl) prior) ph = DEFAULT_STORY ph) ∧
    (∀ ph : Phase, ∀ e : StoryEntry, tbl ph = some e →
      activeData (fetchPoetry (.parsed tbl) prior) ph = e) := by
  refine ⟨rfl, fun ph h => ?_, fun ph e h => ?_⟩
  · show (tbl ph).getD (DEFAULT_STORY ph) = DEFAULT_STORY ph
    rw [h]
    rfl
  · show (tbl ph).getD (DEFAULT_STORY ph) = e
    rw [h]
    rfl

/-- Witness of claim C9: a response missing every key falls back to the
default on display, and a response carrying a key shows that entry. -/
theorem fetch_success_replaces_wholesale_witness :
    activeData (fetchPoetry (.parsed (fun _ => none)) defaultStory)
      .totality = DEFAULT_STORY .totality ∧
    activeData (fetchPoetry
      (.parsed (fun _ => some (DEFAULT_STORY .before))) defaultStory)
      .totality = DEFAULT_STORY .before :=
  ⟨(fetch_success_replaces_wholesale (fun _ => none) defaultStory).2.1
     .totality rfl,
   (fetch_success_replaces_wholesale (fun _ => some (DEFAULT_STORY .before))
     defaultStory).2.2 .totality (DEFAULT_STORY .before) rfl⟩

/-- Claim C10: for every Progress in the closed interval [0,1] — the
value 1 included, reachable through the scrubber maximum and the last
phase-jump control — the phase index stays within 0..5 and the phase
lookup `PHASES[currentIdx]` is defined. -/
theorem phase_lookup_safe (p : ℚ) (h0 : 0 ≤ p) (h1 : p ≤ 1) :
    (0 ≤ currentIdx p ∧ currentIdx p ≤ 5) ∧
    (currentPhase p).isSome = true ∧
    (Event.apply (.jump (numPhases - 1)) initState).progress = 1 ∧
    (Event.apply (.scrub 1) initState).progress = 1 := by
  have hlo : (0:ℤ) ≤ currentIdx p := by
    unfold currentIdx
    refine le_min (Int.floor_nonneg.mpr (by positivity)) ?_
    rw [numPhases_eq]
    norm_num
  have hhi : currentIdx p ≤ 5 := by
    unfold currentIdx
    rw [numPhases_eq]
    exact min_le_right _ _
  refine ⟨⟨hlo, hhi⟩, ?_, ?_, rfl⟩
  · have hn : (currentIdx p).toNat < PHASES.length := by
      have : (currentIdx p).toNat ≤ 5 := Int.toNat_le.mpr hhi
      simp only [PHASES, List.length]
      omega
    unfold currentPhase
    rw [List.get?_eq_get hn]
    rfl
  · show (phaseJump (numPhases - 1) initState).progress = 1
    unfold phaseJump
    rw [numPhases_eq]
    norm_num

/-- Witness of claim C10 at p = 1 exactly. -/
theorem phase_lookup_safe_witness :
    (0 ≤ currentIdx 1 ∧ currentIdx 1 ≤ 5) ∧
    (currentPhase 1).isSome = true :=
  ⟨(phase_lookup_safe 1 (by norm_num) (by norm_num)).1,
   (phase_lookup_safe 1 (by norm_num) (by norm_num)).2.1⟩

end Eclipse
